import Mathlib

/-!
Shallow embedding of the ProStaff-Scraper ingestion engine
(`providers/leaguepedia.py`, `etl/leaguepedia_pipeline.py`,
`etl/historical_backfill.py`, `etl/enrichment_pipeline.py`),
with theorems settling the frozen specification claims.

Machine integers are modelled as `Nat`; fallible code returns `Option` or
`Except`; network and document-store effects are passed in explicitly as
per-call outcome values so every definition stays executable.
-/

namespace ProStaff

/-! ## Generic string helpers

Python's `in` operator on strings is substring containment; `str.count`
on a one-character needle counts character occurrences.  We model pages
as `String` and work on `String.toList`.
-/

/-- Does `pat` occur as a leading block of `l` (character-wise)? -/
def chStartsWith : List Char → List Char → Bool
  | [], _ => true
  | _ :: _, [] => false
  | a :: as, b :: bs => if a = b then chStartsWith as bs else false

/-- Python `needle in hay` for strings: `needle` occurs contiguously in `hay`. -/
def occursIn (needle : List Char) : List Char → Bool
  | [] => chStartsWith needle []
  | c :: cs => chStartsWith needle (c :: cs) || occursIn needle cs

/-- Split a character list at every occurrence of `c`
(the "segments" of a path, in the spec's wording). -/
def splitOnChar (c : Char) : List Char → List (List Char)
  | [] => [[]]
  | a :: as =>
    match splitOnChar c as with
    | [] => [[]]
    | h :: t => if a = c then [] :: h :: t else (a :: h) :: t

theorem splitOnChar_ne_nil (c : Char) (l : List Char) : splitOnChar c l ≠ [] := by
  cases l with
  | nil => simp [splitOnChar]
  | cons a as =>
    simp only [splitOnChar]
    cases h : splitOnChar c as with
    | nil => simp
    | cons x t =>
      by_cases hac : a = c <;> simp [hac]

/-- A list has exactly one more `c`-segment than it has occurrences of `c`. -/
theorem splitOnChar_length (c : Char) (l : List Char) :
    (splitOnChar c l).length = l.count c + 1 := by
  induction l with
  | nil => simp [splitOnChar]
  | cons a as ih =>
    simp only [splitOnChar]
    cases h : splitOnChar c as with
    | nil => exact absurd h (splitOnChar_ne_nil c as)
    | cons x t =>
      rw [h] at ih
      simp only [List.length_cons] at ih
      dsimp only
      by_cases hac : a = c
      · subst hac
        rw [if_pos rfl, List.count_cons_self]
        simp only [List.length_cons]
        omega
      · rw [if_neg hac, List.count_cons_of_ne (fun hce => hac hce.symm)]
        simp only [List.length_cons]
        omega

/-- Split a string at every occurrence of a one-character separator
(every separator in this code base — `;`, `,`, `:`, `/`, `_`, space — is a
single character, so Python `str.split(sep)` is exactly this). -/
def splitStr (c : Char) (s : String) : List String :=
  (splitOnChar c s.toList).map String.mk

/-- Python `str.strip()` whitespace set, restricted to the ASCII
whitespace that occurs in this data. -/
def isSpaceChar (c : Char) : Bool :=
  c = ' ' ∨ c = '\t' ∨ c = '\n' ∨ c = '\r'

/-- Strip leading and trailing whitespace from a character list. -/
def trimChars (l : List Char) : List Char :=
  ((l.dropWhile isSpaceChar).reverse.dropWhile isSpaceChar).reverse

/-- Python `str.strip()`. -/
def trimStr (s : String) : String :=
  String.mk (trimChars s.toList)

def digitVal (c : Char) : Option Nat :=
  if '0' ≤ c ∧ c ≤ '9' then some (c.toNat - '0'.toNat) else none

/-- Python `int(s)` on a non-negative decimal string: `none` models the
`ValueError` the callers catch. -/
def toNatChars (l : List Char) : Option Nat :=
  if l = [] then none
  else
    l.foldl
      (fun acc c =>
        match acc, digitVal c with
        | some a, some d => some (a * 10 + d)
        | _, _ => none)
      (some 0)

/-- `"sep".join(parts)` -/
def joinWith (sep : String) : List String → String
  | [] => ""
  | [x] => x
  | x :: y :: ys => x ++ sep ++ joinWith sep (y :: ys)

/-- Python `str.lower()` (character-wise, ASCII data). -/
def lowerStr (s : String) : String :=
  String.mk (s.toList.map Char.toLower)

/-! ## `providers/leaguepedia.py`: field parsers -/

/-- `_parse_items`: semicolon-separated item names, empty slots removed. -/
def parse_items (raw : String) : List String :=
  if raw = "" then []
  else ((splitStr ';' raw).map trimStr).filter (fun s => s ≠ "")

/-- Structured rune data returned by `_parse_runes`. -/
structure RuneData where
  keystone : Option String
  primary_runes : List String
  secondary_runes : List String
  stat_shards : List String
  deriving Repr, DecidableEq

/-- `_parse_runes`: comma-separated 9-entry rune string, padded with empty
entries when malformed. -/
def parse_runes (raw : String) : RuneData :=
  if raw = "" then ⟨none, [], [], []⟩
  else
    let parts0 := (splitStr ',' raw).map trimStr
    let parts := parts0 ++ List.replicate (9 - parts0.length) ""
    { keystone := if parts.headD "" = "" then none else some (parts.headD "")
      primary_runes := ((parts.drop 1).take 3).filter (fun p => p ≠ "")
      secondary_runes := ((parts.drop 4).take 2).filter (fun p => p ≠ "")
      stat_shards := ((parts.drop 6).take 3).filter (fun p => p ≠ "") }

/-- `_parse_summoner_spells`: comma-separated spell names. -/
def parse_summoner_spells (raw : String) : List String :=
  if raw = "" then []
  else ((splitStr ',' raw).map trimStr).filter (fun s => s ≠ "")

/-- `_safe_int`: a raw numeric cargo field is either absent/unparseable
(`none`, which Python maps to `0`) or a parsed number. -/
def safe_int (v : Option Nat) : Nat := v.getD 0

/-- `_parse_gamelength` / `_parse_gamelength_seconds`: `"MM:SS"` to total
seconds, `0` for anything unparseable (the Python `int` failure is caught). -/
def parse_gamelength (gamelength : String) : Nat :=
  if gamelength = "" then 0
  else
    match splitStr ':' (trimStr gamelength) with
    | [m, s] =>
      match toNatChars (trimChars m.toList), toNatChars (trimChars s.toList) with
      | some mv, some sv => mv * 60 + sv
      | _, _ => 0
    | _ => 0

/-! ## `etl/historical_backfill.py`: main-event filter -/

/-- `_SKIP_KEYWORDS`: blocklisted markers of non-main-event pages. -/
def SKIP_KEYWORDS : List String :=
  ["Qualifier", "qualifier", "All-Star", "All Star", "Tiebreaker",
   "Promotion", "Relegation", "Academy", "Showmatch", "Chrono", "Boost"]

/-- `_EXPECTED_SLASH_COUNT` -/
def EXPECTED_SLASH_COUNT : Nat := 2

/-- `_is_main_event`: exactly two `/` in the page path and no blocklisted
keyword occurring anywhere in the page text. -/
def is_main_event (overviewPage : String) : Bool :=
  if overviewPage.toList.count '/' ≠ EXPECTED_SLASH_COUNT then false
  else if SKIP_KEYWORDS.any (fun kw => occursIn kw.toList overviewPage.toList) then false
  else true

theorem is_main_event_iff (p : String) :
    is_main_event p = true ↔
      (p.toList.count '/' = 2 ∧
        ∀ kw ∈ SKIP_KEYWORDS, occursIn kw.toList p.toList = false) := by
  unfold is_main_event EXPECTED_SLASH_COUNT
  split_ifs with h1 h2
  · simp only [false_iff]
    exact fun h => h1 h.1
  · simp only [false_iff]
    rw [List.any_eq_true] at h2
    obtain ⟨kw, hmem, hocc⟩ := h2
    intro h
    rw [h.2 kw hmem] at hocc
    exact Bool.false_ne_true hocc
  · simp only [true_iff]
    refine ⟨not_not.mp h1, fun kw hmem => ?_⟩
    cases hb : occursIn kw.toList p.toList with
    | false => rfl
    | true => exact absurd (List.any_eq_true.mpr ⟨kw, hmem, hb⟩) h2

/-- Claim C8: for every page identifier, the main-event filter accepts it iff
its path has exactly three segments (equivalently exactly two `/` separators)
and no blocklisted keyword occurs in it; in particular a three-segment page
with no keyword passes, and a four-segment page, or one containing
"Qualifier" or "Academy", is rejected. -/
theorem mainEventFilter_correct :
    (∀ p : String, is_main_event p = true ↔
      ((splitOnChar '/' p.toList).length = 3 ∧
        ∀ kw ∈ SKIP_KEYWORDS, occursIn kw.toList p.toList = false)) ∧
    is_main_event "CBLOL/2023 Season/Split 1" = true ∧
    is_main_event "CBLOL/2026 Season/Cup/Qualifier" = false ∧
    is_main_event "CBLOL/2023 Season/Qualifier 2" = false ∧
    is_main_event "LCS/2020 Season/Academy Spring" = false := by
  refine ⟨fun p => ?_, by decide, by decide, by decide, by decide⟩
  rw [is_main_event_iff p, splitOnChar_length]
  constructor
  · exact fun h => ⟨by omega, h.2⟩
  · exact fun h => ⟨by omega, h.2⟩

/-! ## `etl/historical_backfill.py`: the Backfill Orchestrator

`HistoricalBackfillPipeline.run` walks the persisted tournament list and
mutates one `EventGroupRecord` per iteration.  The Import Pipeline's
behaviour on a given tournament is passed in as a per-index `PipeOutcome`
(the pipeline either raises, or returns with its `stats` counters).
Timestamps (`started_at`, `completed_at`, `updated_at`) and message strings
are wall-clock metadata irrelevant to the claims and are not modelled.
-/

/-- The `TOURNAMENT_STATUS_*` constants. -/
inductive TStatus
  | pending
  | in_progress
  | completed
  | skipped
  | error
  | rate_limited
  deriving Repr, DecidableEq

/-- `LeaguepediaPipeline.stats` as read back by the orchestrator. -/
structure PipeStats where
  fetched : Nat
  enriched : Nat
  indexed : Nat
  skipped_no_players : Nat
  skipped_exists : Nat
  errors : Nat
  deriving Repr, DecidableEq

/-- One tournament entry of the persisted backfill state (an
EventGroupRecord).  Missing `fetch_retries` keys read as `0` in the source
(`entry.get("fetch_retries", 0)`), so the counter is a plain `Nat`. -/
structure Entry where
  status : TStatus
  games_indexed : Nat
  games_skipped : Nat
  errors : Nat
  fetch_retries : Nat
  deriving Repr, DecidableEq

/-- A freshly seeded entry (`run`, first-run seeding block). -/
def seedEntry : Entry :=
  { status := .pending, games_indexed := 0, games_skipped := 0,
    errors := 0, fetch_retries := 0 }

/-- `MAX_FETCH_RETRIES` -/
def MAX_FETCH_RETRIES : Nat := 5

/-- What `pipeline.run(overview_page)` did for one tournament: raised the
rate-limit condition, raised any other exception, or returned with stats. -/
inductive PipeOutcome
  | raisedRateLimited
  | raisedOther
  | returned (stats : PipeStats)
  deriving Repr, DecidableEq

/-- The statuses the orchestrator's loop treats as still actionable
(everything else is `continue`d over). -/
def actionable (s : TStatus) : Bool :=
  match s with
  | .pending => true
  | .in_progress => true
  | .error => true
  | .rate_limited => true
  | _ => false

/-- Outcome classification of one `pipeline.run` call
(`try`/`except` block of `HistoricalBackfillPipeline.run`):
rate limit → `rate_limited` without touching `fetch_retries`;
`fetched == 0` → `error` with `fetch_retries + 1`;
`fetched > 0` → `completed` with the counters copied over;
any other exception → `error` with `fetch_retries` rewritten unchanged. -/
def applyOutcome (e : Entry) (o : PipeOutcome) : Entry :=
  match o with
  | .raisedRateLimited => { e with status := .rate_limited }
  | .raisedOther => { e with status := .error, fetch_retries := e.fetch_retries }
  | .returned st =>
    if st.fetched = 0 then
      { e with status := .error, fetch_retries := e.fetch_retries + 1 }
    else
      { e with status := .completed,
               games_indexed := st.indexed,
               games_skipped := st.skipped_exists,
               errors := st.errors }

/-- One loop iteration of `HistoricalBackfillPipeline.run` for one entry:
skip non-actionable statuses; demote `error`-at-ceiling to `skipped`;
otherwise mark `in_progress` and run the pipeline (or fake-complete under
`--dry-run`). -/
def processOne (dryRun : Bool) (o : PipeOutcome) (e : Entry) : Entry :=
  if actionable e.status then
    if e.status = .error ∧ MAX_FETCH_RETRIES ≤ e.fetch_retries then
      { e with status := .skipped }
    else
      let e1 := { e with status := .in_progress }
      if dryRun then { e1 with status := .completed }
      else applyOutcome e1 o
  else e

/-- The sequence of versions of one entry persisted (`_save_progress`)
during its loop iteration: the `skipped` demotion is persisted once
without the pipeline ever running; a processed entry is persisted as
`in_progress` and then with its final status. -/
def entryTrace (dryRun : Bool) (o : PipeOutcome) (e : Entry) : List Entry :=
  if actionable e.status then
    if e.status = .error ∧ MAX_FETCH_RETRIES ≤ e.fetch_retries then
      [{ e with status := .skipped }]
    else
      let e1 := { e with status := .in_progress }
      if dryRun then [e1, { e1 with status := .completed }]
      else [e1, applyOutcome e1 o]
  else []

/-- One full orchestrator run over the stored entry list, the i-th entry's
pipeline behaviour given by `o i`. -/
def runBackfill (dryRun : Bool) (o : Nat → PipeOutcome) : List Entry → List Entry
  | [] => []
  | e :: rest => processOne dryRun (o 0) e :: runBackfill dryRun (fun i => o (i + 1)) rest

/-- States of the persisted tournament list reachable from a freshly
seeded `BackfillState` by any number of orchestrator runs, each run with
arbitrary dry-run flag and arbitrary pipeline outcomes. -/
inductive Reachable : List Entry → Prop
  | seed (n : Nat) : Reachable (List.replicate n seedEntry)
  | step (s : List Entry) (dryRun : Bool) (o : Nat → PipeOutcome) :
      Reachable s → Reachable (runBackfill dryRun o s)

/-- The inductive invariant: the retry counter never exceeds the ceiling,
and an entry at the ceiling can only be `error` or `skipped`. -/
def EntryInv (e : Entry) : Prop :=
  e.fetch_retries ≤ MAX_FETCH_RETRIES ∧
  (e.fetch_retries = MAX_FETCH_RETRIES → e.status = .error ∨ e.status = .skipped)

theorem entryInv_seed : EntryInv seedEntry := by
  constructor
  · simp [seedEntry, MAX_FETCH_RETRIES]
  · intro h
    simp [seedEntry, MAX_FETCH_RETRIES] at h

theorem entryInv_processOne (d : Bool) (o : PipeOutcome) (e : Entry)
    (h : EntryInv e) : EntryInv (processOne d o e) := by
  obtain ⟨hle, hmax⟩ := h
  unfold processOne
  by_cases hact : actionable e.status = true
  · rw [if_pos hact]
    by_cases hskip : e.status = .error ∧ MAX_FETCH_RETRIES ≤ e.fetch_retries
    · rw [if_pos hskip]
      exact ⟨hle, fun _ => Or.inr rfl⟩
    · rw [if_neg hskip]
      have hlt : e.fetch_retries < MAX_FETCH_RETRIES := by
        rcases Nat.lt_or_ge e.fetch_retries MAX_FETCH_RETRIES with hl | hg
        · exact hl
        · have heq : e.fetch_retries = MAX_FETCH_RETRIES := Nat.le_antisymm hle hg
          rcases hmax heq with herr | hskp
          · exact absurd ⟨herr, hg⟩ hskip
          · rw [hskp] at hact
            simp [actionable] at hact
      by_cases hd : d = true
      · rw [hd, if_pos rfl]
        exact ⟨hle, fun hq => absurd hq (Nat.ne_of_lt hlt)⟩
      · rw [if_neg hd]
        cases o with
        | raisedRateLimited =>
          exact ⟨hle, fun hq => absurd hq (Nat.ne_of_lt hlt)⟩
        | raisedOther =>
          exact ⟨hle, fun _ => Or.inl rfl⟩
        | returned st =>
          by_cases hf : st.fetched = 0
          · simp only [applyOutcome, if_pos hf]
            exact ⟨Nat.succ_le_of_lt hlt, fun _ => Or.inl rfl⟩
          · simp only [applyOutcome, if_neg hf]
            exact ⟨hle, fun hq => absurd hq (Nat.ne_of_lt hlt)⟩
  · rw [if_neg hact]
    exact ⟨hle, hmax⟩

theorem entryTrace_retries_le (d : Bool) (o : PipeOutcome) (e : Entry)
    (h : EntryInv e) :
    ∀ v ∈ entryTrace d o e, v.fetch_retries ≤ MAX_FETCH_RETRIES := by
  obtain ⟨hle, hmax⟩ := h
  intro v hv
  unfold entryTrace at hv
  by_cases hact : actionable e.status = true
  · rw [if_pos hact] at hv
    by_cases hskip : e.status = .error ∧ MAX_FETCH_RETRIES ≤ e.fetch_retries
    · rw [if_pos hskip] at hv
      simp at hv
      rw [hv]
      exact hle
    · rw [if_neg hskip] at hv
      by_cases hd : d = true
      · rw [hd, if_pos rfl] at hv
        simp at hv
        rcases hv with hv | hv <;> rw [hv] <;> exact hle
      · rw [if_neg hd] at hv
        simp at hv
        rcases hv with hv | hv
        · rw [hv]; exact hle
        · rw [hv]
          have := entryInv_processOne d o e ⟨hle, hmax⟩
          unfold processOne at this
          rw [if_pos hact, if_neg hskip, if_neg hd] at this
          exact this.1
  · rw [if_neg hact] at hv
    simp at hv

theorem runBackfill_inv (d : Bool) (o : Nat → PipeOutcome) (s : List Entry)
    (h : ∀ e ∈ s, EntryInv e) : ∀ e ∈ runBackfill d o s, EntryInv e := by
  induction s generalizing o with
  | nil => intro e he; simp [runBackfill] at he
  | cons a rest ih =>
    intro e he
    simp only [runBackfill, List.mem_cons] at he
    rcases he with he | he
    · rw [he]
      exact entryInv_processOne d (o 0) a (h a (List.mem_cons_self a rest))
    · exact ih (fun i => o (i + 1)) (fun x hx => h x (List.mem_cons_of_mem a hx)) e he

theorem reachable_entryInv (s : List Entry) (h : Reachable s) :
    ∀ e ∈ s, EntryInv e := by
  induction h with
  | seed n =>
    intro e he
    rw [List.eq_of_mem_replicate he]
    exact entryInv_seed
  | step s d o _ ih => exact runBackfill_inv d o s ih

/-- Claim C4: in every state reachable from a freshly seeded backfill state
— including every entry-version persisted mid-run — `fetch_retries` stays
at or below `MAX_FETCH_RETRIES`; and an `error` entry that has reached the
ceiling is demoted to `skipped` (its one persisted write), independently of
the dry-run flag and of anything the pipeline might have done — it is not
processed again. -/
theorem backfill_retries_bounded :
    (∀ s, Reachable s → ∀ e ∈ s, e.fetch_retries ≤ MAX_FETCH_RETRIES) ∧
    (∀ s, Reachable s → ∀ e ∈ s, ∀ d o, ∀ v ∈ entryTrace d o e,
      v.fetch_retries ≤ MAX_FETCH_RETRIES) ∧
    (∀ (e : Entry) (d : Bool) (o : PipeOutcome),
      e.status = .error → MAX_FETCH_RETRIES ≤ e.fetch_retries →
      processOne d o e = { e with status := .skipped } ∧
      entryTrace d o e = [{ e with status := .skipped }]) := by
  refine ⟨?_, ?_, ?_⟩
  · intro s hs e he
    exact (reachable_entryInv s hs e he).1
  · intro s hs e he d o v hv
    exact entryTrace_retries_le d o e (reachable_entryInv s hs e he) v hv
  · intro e d o herr hge
    have hact : actionable e.status = true := by rw [herr]; rfl
    constructor
    · unfold processOne
      rw [if_pos hact, if_pos ⟨herr, hge⟩]
    · unfold entryTrace
      rw [if_pos hact, if_pos ⟨herr, hge⟩]

theorem backfill_retries_bounded_witness :
    seedEntry.fetch_retries ≤ MAX_FETCH_RETRIES ∧
    processOne false .raisedOther
        { status := .error, games_indexed := 0, games_skipped := 0,
          errors := 0, fetch_retries := 5 } =
      { status := .skipped, games_indexed := 0, games_skipped := 0,
        errors := 0, fetch_retries := 5 } := by
  constructor
  · exact backfill_retries_bounded.1 (List.replicate 1 seedEntry)
      (Reachable.seed 1) seedEntry (by simp)
  · exact (backfill_retries_bounded.2.2
      { status := .error, games_indexed := 0, games_skipped := 0,
        errors := 0, fetch_retries := 5 }
      false .raisedOther rfl (by norm_num [MAX_FETCH_RETRIES])).1

/-- Claim C3: for an entry the orchestrator actually processes (actionable
and not demoted by the retry-ceiling guard, with the pipeline really run,
i.e. not a dry run): a rate-limited pipeline leaves `fetch_retries`
unchanged and transitions the entry to `rate_limited`; a pipeline that
returns `fetched = 0` increments `fetch_retries` by exactly one and
transitions the entry to `error`. -/
theorem rateLimit_vs_zeroFetched_retries (e : Entry)
    (hact : actionable e.status = true)
    (hskip : ¬(e.status = .error ∧ MAX_FETCH_RETRIES ≤ e.fetch_retries)) :
    ((processOne false .raisedRateLimited e).fetch_retries = e.fetch_retries ∧
      (processOne false .raisedRateLimited e).status = .rate_limited) ∧
    (∀ st : PipeStats, st.fetched = 0 →
      (processOne false (.returned st) e).fetch_retries = e.fetch_retries + 1 ∧
      (processOne false (.returned st) e).status = .error) := by
  constructor
  · unfold processOne
    rw [if_pos hact, if_neg hskip]
    simp [applyOutcome]
  · intro st hst
    unfold processOne
    rw [if_pos hact, if_neg hskip]
    simp [applyOutcome, hst]

theorem rateLimit_vs_zeroFetched_retries_witness :
    (processOne false .raisedRateLimited seedEntry).fetch_retries =
        seedEntry.fetch_retries ∧
    (processOne false (.returned ⟨0, 0, 0, 0, 0, 0⟩) seedEntry).fetch_retries =
        seedEntry.fetch_retries + 1 := by
  have h := rateLimit_vs_zeroFetched_retries seedEntry (by decide) (by decide)
  exact ⟨h.1.1, (h.2 ⟨0, 0, 0, 0, 0, 0⟩ rfl).1⟩

/-! ## `providers/leaguepedia.py`: `get_game_players`

Remote effects are passed in as explicit per-call outcomes: a Cargo query
either raised an exception out of `_cargo_query` (on retry exhaustion that
is tenacity's `RetryError`; transport errors are also possible) or
produced a list of result rows.  `get_game_players` wraps its query in
`except Exception: return []`, so it itself never raises.
-/

/-- Exception kinds relevant to the embedded code paths. -/
inductive ExcKind
  | rateLimited
  | retryError
  | other
  deriving Repr, DecidableEq

/-- Outcome of one Cargo query as seen by the code around `_cargo_query`. -/
inductive QueryOutcome (α : Type)
  | raised (exc : ExcKind)
  | success (rows : List α)
  deriving Repr, DecidableEq

/-- A raw `ScoreboardPlayers` row.  Numeric cargo fields arrive as strings;
`_safe_int` maps absent or unparseable values to `0`, so they are modelled
as `Option Nat` (`none` = absent/unparseable). -/
structure PlayerRow where
  Name : String
  Team : String
  Champion : String
  Role : String
  Kills : Option Nat
  Deaths : Option Nat
  Assists : Option Nat
  Gold : Option Nat
  CS : Option Nat
  DamageToChampions : Option Nat
  DamageTaken : Option Nat
  VisionScore : Option Nat
  WardsPlaced : Option Nat
  WardsKilled : Option Nat
  Items : String
  Runes : String
  SummonerSpells : String
  deriving Repr, DecidableEq

/-- The derived per-minute block, present only when the game duration was
known at build time.  The Python code display-rounds each rate with
`round(x, 2)` (IEEE-float rounding); the claims concern only whether the
fields are present, so the exact rational rate is stored unrounded. -/
structure PerMinStats where
  cs_per_min : ℚ
  gold_per_min : ℚ
  damage_per_min : ℚ
  deriving Repr, DecidableEq

/-- One player dict as produced by `get_game_players` (and later annotated
with `win` by `build_es_document` / `get_game_data`; the key is absent
until then, hence `Option Bool`). -/
structure PlayerData where
  summoner_name : String
  team_name : String
  champion_name : String
  role : String
  kills : Nat
  deaths : Nat
  assists : Nat
  gold : Nat
  cs : Nat
  damage : Nat
  damage_taken : Nat
  vision_score : Nat
  wards_placed : Nat
  wards_killed : Nat
  items : List String
  summoner_spells : List String
  keystone : Option String
  primary_runes : List String
  secondary_runes : List String
  stat_shards : List String
  per_min : Option PerMinStats
  win : Option Bool
  deriving Repr, DecidableEq

/-- The per-row body of the `get_game_players` loop.  The source computes
`game_minutes = game_duration_seconds / 60.0 if game_duration_seconds > 0
else 0.0` and guards the per-minute block on `game_minutes > 0`; for an
integer duration that guard holds exactly when `0 < game_duration_seconds`,
so the integer guard is used here and the minutes value is inlined. -/
def buildPlayer (game_duration_seconds : Nat) (row : PlayerRow) : PlayerData :=
  let runeData := parse_runes row.Runes
  let cs := safe_int row.CS
  let gold := safe_int row.Gold
  let damage := safe_int row.DamageToChampions
  { summoner_name := row.Name
    team_name := row.Team
    champion_name := row.Champion
    role := row.Role
    kills := safe_int row.Kills
    deaths := safe_int row.Deaths
    assists := safe_int row.Assists
    gold := gold
    cs := cs
    damage := damage
    damage_taken := safe_int row.DamageTaken
    vision_score := safe_int row.VisionScore
    wards_placed := safe_int row.WardsPlaced
    wards_killed := safe_int row.WardsKilled
    items := parse_items row.Items
    summoner_spells := parse_summoner_spells row.SummonerSpells
    keystone := runeData.keystone
    primary_runes := runeData.primary_runes
    secondary_runes := runeData.secondary_runes
    stat_shards := runeData.stat_shards
    per_min :=
      if 0 < game_duration_seconds then
        some { cs_per_min := (cs : ℚ) / ((game_duration_seconds : ℚ) / 60)
               gold_per_min := (gold : ℚ) / ((game_duration_seconds : ℚ) / 60)
               damage_per_min := (damage : ℚ) / ((game_duration_seconds : ℚ) / 60) }
      else none
    win := none }

/-- `get_game_players(page_name, game_duration_seconds)`: any exception
from the query is caught and becomes `[]`; an empty result set is `[]`;
otherwise each row is built, with per-minute fields only when
`game_duration_seconds > 0`. -/
def get_game_players (q : QueryOutcome PlayerRow) (game_duration_seconds : Nat) :
    List PlayerData :=
  match q with
  | .raised _ => []
  | .success results =>
    if results = [] then []
    else results.map (buildPlayer game_duration_seconds)

/-! ## `etl/leaguepedia_pipeline.py`: document builder -/

/-- A raw `ScoreboardGames` row (string cargo fields; the two score fields
and the game number arrive already through Python `int`). -/
structure GameRow where
  GameId : String
  OverviewPage : String
  WinTeam : String
  Team1 : String
  Team2 : String
  Patch : String
  Gamelength : String
  DateTimeUTC : String
  NGameInMatch : Nat
  Team1Score : Nat
  Team2Score : Nat
  deriving Repr, DecidableEq

/-- `_parse_stage`: strip the `"{OverviewPage}_"` lead of a GameId, then
drop the trailing `_{MatchNum}_{GameNum}` via a right-split capped at two
separators. -/
def parse_stage (game_id : String) (overview_page : String) : String :=
  let pre := (overview_page ++ "_").toList
  if chStartsWith pre game_id.toList then
    let remainder := String.mk (game_id.toList.drop pre.length)
    let segs := splitStr '_' remainder
    if 3 ≤ segs.length then
      joinWith "_" (segs.take (segs.length - 2))
    else remainder
  else "Unknown"

/-- `_infer_best_of` -/
def infer_best_of (stage : String) : Nat :=
  let s := lowerStr stage
  if ["week", "regular", "group", "swiss"].any (fun w => occursIn w.toList s.toList) then 1
  else if ["final", "semifinal", "quarter"].any (fun w => occursIn w.toList s.toList) then 5
  else 3

/-- The year extraction inside `_parse_overview_page`: first
whitespace-separated token of the season part, `0` when unparseable. -/
def parse_year (season_part : String) : Nat :=
  match (splitStr ' ' season_part).filter (fun t => t ≠ "") with
  | [] => 0
  | tok :: _ => (toNatChars tok.toList).getD 0

/-- Structured fields extracted by `_parse_overview_page`. -/
structure OverviewMeta where
  year : Nat
  split_event : String
  tournament_name : String
  deriving Repr, DecidableEq

/-- `_parse_overview_page` -/
def parse_overview_page (overview_page : String) : OverviewMeta :=
  let parts := splitStr '/' overview_page
  if 3 ≤ parts.length then
    let season := parts.getD 1 ""
    let se := parts.getD 2 ""
    { year := parse_year season, split_event := se,
      tournament_name := season ++ " " ++ se }
  else if parts.length = 2 then
    let season := parts.getD 1 ""
    { year := parse_year season, split_event := season, tournament_name := season }
  else
    { year := 0, split_event := "", tournament_name := overview_page }

/-- `team_name[:3].upper()` -/
def teamCode (name : String) : String :=
  String.mk ((name.toList.take 3).map Char.toUpper)

/-- `datetime_utc.replace(" ", "T") + "Z"` (empty stays empty). -/
def toStartTime (datetime_utc : String) : String :=
  if datetime_utc = "" then ""
  else
    String.mk (datetime_utc.toList.map (fun ch => if ch = ' ' then 'T' else ch)) ++ "Z"

/-- The Elasticsearch document built by `build_es_document` (the wall-clock
`indexed_at` stamp is not modelled; `enriched_at` /
`last_enrichment_attempt` are carried for the enrichment pipeline and are
absent on a fresh import). -/
structure EsDoc where
  id : String
  game_number : Nat
  league : String
  stage : String
  start_time : String
  best_of : Nat
  team1_name : String
  team1_code : String
  team1_game_wins : Nat
  team2_name : String
  team2_code : String
  team2_game_wins : Nat
  winner_code : String
  game_duration_seconds : Nat
  patch : String
  participants : List PlayerData
  riot_enriched : Bool
  win_team : String
  gamelength : String
  enrichment_source : String
  enrichment_attempts : Nat
  enriched_at : Option Nat
  last_enrichment_attempt : Option Nat
  year : Nat
  split_event : String
  tournament_name : String
  deriving Repr, DecidableEq

/-- `build_es_document(row, players, league_override)`.  Python's
`league_override or (...)` treats an empty override as absent. -/
def build_es_document (row : GameRow) (players : List PlayerData)
    (league_override : Option String) : EsDoc :=
  let annotated := players.map (fun p => { p with win := some (p.team_name = row.WinTeam) })
  let stage := parse_stage row.GameId row.OverviewPage
  let meta := parse_overview_page row.OverviewPage
  let fallback := (splitStr '/' row.OverviewPage).headD row.OverviewPage
  let league_label :=
    match league_override with
    | some l => if l = "" then fallback else l
    | none => fallback
  { id := row.GameId
    game_number := row.NGameInMatch
    league := league_label
    stage := stage
    start_time := toStartTime row.DateTimeUTC
    best_of := infer_best_of stage
    team1_name := row.Team1
    team1_code := teamCode row.Team1
    team1_game_wins := row.Team1Score
    team2_name := row.Team2
    team2_code := teamCode row.Team2
    team2_game_wins := row.Team2Score
    winner_code := row.WinTeam
    game_duration_seconds := parse_gamelength row.Gamelength
    patch := row.Patch
    participants := annotated
    riot_enriched := true
    win_team := row.WinTeam
    gamelength := row.Gamelength
    enrichment_source := "leaguepedia_pipeline"
    enrichment_attempts := 0
    enriched_at := none
    last_enrichment_attempt := none
    year := meta.year
    split_event := meta.split_event
    tournament_name := meta.tournament_name }

/-! ## `etl/leaguepedia_pipeline.py`: `LeaguepediaPipeline.run`

Per-game environment (the document-store existence check and the
`ScoreboardPlayers` query outcome) is bundled with each fetched game row.
The bulk-upsert collaborator is modelled as always accepting the batch
(the claims about it presuppose error-free store writes).
-/

/-- `CHECKPOINT_SIZE` -/
def CHECKPOINT_SIZE : Nat := 10

/-- One fetched game row together with its per-game environment. -/
structure GameInput where
  row : GameRow
  existsEnriched : Bool
  playersQuery : QueryOutcome PlayerRow
  deriving Repr, DecidableEq

/-- What one run of `LeaguepediaPipeline.run` did. -/
structure RunResult where
  stats : PipeStats
  flushes : List (List EsDoc)
  fetch_count : Nat
  raised : Option ExcKind
  deriving Repr, DecidableEq

/-- The pipeline's player-fetch step.  `get_game_players` catches every
exception internally and returns a list, so this step always succeeds —
the pipeline's `except LeaguepediaRateLimitError` handler can never fire.
The pipeline passes no duration (Python default `0`). -/
def fetchPlayersStep (q : QueryOutcome PlayerRow) : Except ExcKind (List PlayerData) :=
  .ok (get_game_players q 0)

/-- Initial per-run counters. -/
def initStats : PipeStats :=
  { fetched := 0, enriched := 0, indexed := 0,
    skipped_no_players := 0, skipped_exists := 0, errors := 0 }

/-- The per-game loop of `LeaguepediaPipeline.run` (steps 2 and 3),
carrying the pending batch, the counters, the bulk-upsert calls made so
far and the number of player fetches performed. -/
def runLoop (dryRun : Bool) (league_override : Option String) :
    List GameInput → List EsDoc → PipeStats → List (List EsDoc) → Nat → RunResult
  | [], docs, stats, flushes, fc =>
    if dryRun = false ∧ docs ≠ [] then
      { stats := { stats with indexed := stats.indexed + docs.length },
        flushes := flushes ++ [docs], fetch_count := fc, raised := none }
    else
      { stats := stats, flushes := flushes, fetch_count := fc, raised := none }
  | g :: rest, docs, stats, flushes, fc =>
    if g.row.GameId = "" then
      runLoop dryRun league_override rest docs stats flushes fc
    else if dryRun = false ∧ g.existsEnriched = true then
      runLoop dryRun league_override rest docs
        { stats with skipped_exists := stats.skipped_exists + 1 } flushes fc
    else if dryRun then
      runLoop dryRun league_override rest docs
        { stats with enriched := stats.enriched + 1 } flushes fc
    else
      match fetchPlayersStep g.playersQuery with
      | .error .rateLimited =>
        if docs ≠ [] then
          { stats := { stats with indexed := stats.indexed + docs.length },
            flushes := flushes ++ [docs], fetch_count := fc + 1,
            raised := some .rateLimited }
        else
          { stats := stats, flushes := flushes, fetch_count := fc + 1,
            raised := some .rateLimited }
      | .error _ =>
        runLoop dryRun league_override rest docs
          { stats with errors := stats.errors + 1 } flushes (fc + 1)
      | .ok players =>
        if players = [] then
          runLoop dryRun league_override rest docs
            { stats with skipped_no_players := stats.skipped_no_players + 1 }
            flushes (fc + 1)
        else
          let doc := build_es_document g.row players league_override
          let docs1 := docs ++ [doc]
          let stats1 := { stats with enriched := stats.enriched + 1 }
          if CHECKPOINT_SIZE ≤ docs1.length then
            runLoop dryRun league_override rest []
              { stats1 with indexed := stats1.indexed + docs1.length }
              (flushes ++ [docs1]) (fc + 1)
          else
            runLoop dryRun league_override rest docs1 stats1 flushes (fc + 1)

/-- `LeaguepediaPipeline.run` on an already-fetched game list. -/
def pipeline_run (dryRun : Bool) (league_override : Option String)
    (games : List GameInput) : RunResult :=
  if games = [] then
    { stats := initStats, flushes := [], fetch_count := 0, raised := none }
  else
    runLoop dryRun league_override games [] { initStats with fetched := games.length } [] 0

/-! ## Concrete sample data for witnesses and counterexamples -/

def samplePlayerRow : PlayerRow :=
  { Name := "Player1", Team := "Alpha Team", Champion := "Ahri", Role := "Mid",
    Kills := some 5, Deaths := some 2, Assists := some 7, Gold := some 12000,
    CS := some 250, DamageToChampions := some 18000, DamageTaken := some 14000,
    VisionScore := some 40, WardsPlaced := some 12, WardsKilled := some 5,
    Items := "Item A;Item B", Runes := "Electrocute,R2,R3,R4,S1,S2,Sh1,Sh2,Sh3",
    SummonerSpells := "Flash,Ignite" }

def sampleGameRow : GameRow :=
  { GameId := "CBLOL/2023 Season/Split 1_Week 1_1_1",
    OverviewPage := "CBLOL/2023 Season/Split 1",
    WinTeam := "Alpha Team", Team1 := "Alpha Team", Team2 := "Beta Team",
    Patch := "13.1", Gamelength := "30:00", DateTimeUTC := "2023-01-21 20:00:00",
    NGameInMatch := 1, Team1Score := 1, Team2Score := 0 }

/-- A game whose document-store check misses and whose player query
succeeds with one row. -/
def happyGame : GameInput :=
  { row := sampleGameRow, existsEnriched := false,
    playersQuery := .success [samplePlayerRow] }

def games12 : List GameInput := List.replicate 12 happyGame

/-- The 12-game list whose 7th game's player query is rejected as
rate-limited on every internal retry, so the exception escaping
`_cargo_query` (tenacity's `RetryError`) reaches `get_game_players`. -/
def games12RL : List GameInput :=
  games12.set 6
    { row := sampleGameRow, existsEnriched := false,
      playersQuery := .raised .retryError }

/-! ## Checkpoint-flush behaviour (claim C6) -/

/-- A game the claim's happy-path hypotheses hold for: a usable GameId, no
already-enriched document in the store, and a player query that succeeds
with at least one row. -/
def happyInput (g : GameInput) : Prop :=
  g.row.GameId ≠ "" ∧ g.existsEnriched = false ∧
    ∃ rows, g.playersQuery = QueryOutcome.success rows ∧ rows ≠ []

/-- Flush sizes of the happy-path loop: starting with `p` pending
documents, every batch flushed inside the loop has exactly
`CHECKPOINT_SIZE` documents, and the remainder is flushed once at the
end. -/
theorem runLoop_happy_flushes (lo : Option String) :
    ∀ (games : List GameInput) (docs : List EsDoc) (stats : PipeStats)
      (flushes : List (List EsDoc)) (fc : Nat),
      (∀ g ∈ games, happyInput g) →
      docs.length < CHECKPOINT_SIZE →
      (runLoop false lo games docs stats flushes fc).flushes.map List.length =
        flushes.map List.length ++
          (List.replicate ((docs.length + games.length) / CHECKPOINT_SIZE) CHECKPOINT_SIZE ++
            (if (docs.length + games.length) % CHECKPOINT_SIZE = 0 then []
             else [(docs.length + games.length) % CHECKPOINT_SIZE])) := by
  intro games
  induction games with
  | nil =>
    intro docs stats flushes fc _ hlt
    have hdiv : docs.length / CHECKPOINT_SIZE = 0 := Nat.div_eq_of_lt hlt
    have hmod : docs.length % CHECKPOINT_SIZE = docs.length := Nat.mod_eq_of_lt hlt
    by_cases hd : docs = []
    · subst hd
      simp [runLoop]
    · have h0 : docs.length ≠ 0 := fun hc => hd (List.eq_nil_of_length_eq_zero hc)
      simp [runLoop, hd, hdiv, hmod, h0]
  | cons g rest ih =>
    intro docs stats flushes fc hh hlt
    obtain ⟨hid, hex, rows, hq, hrows⟩ := hh g (List.mem_cons_self g rest)
    have hrest : ∀ g ∈ rest, happyInput g :=
      fun x hx => hh x (List.mem_cons_of_mem g hx)
    have hplayers : get_game_players g.playersQuery 0 =
        rows.map (buildPlayer 0) := by
      rw [hq]
      simp [get_game_players, hrows]
    have hne : rows.map (buildPlayer 0) ≠ [] := by
      simpa using hrows
    simp only [runLoop, fetchPlayersStep, hplayers, hex, if_neg hid,
      Bool.false_eq_true, and_false, false_and, if_false, if_neg hne]
    set doc := build_es_document g.row (rows.map (buildPlayer 0)) lo with hdoc
    have hCS : 0 < CHECKPOINT_SIZE := by norm_num [CHECKPOINT_SIZE]
    by_cases hck : CHECKPOINT_SIZE ≤ (docs ++ [doc]).length
    · rw [if_pos hck, ih [] _ _ _ hrest (by simpa using hCS)]
      have hfull : docs.length + 1 = CHECKPOINT_SIZE := by
        simp only [List.length_append, List.length_singleton, List.length_cons, List.length_nil] at hck
        omega
      have htot : docs.length + (g :: rest).length = rest.length + CHECKPOINT_SIZE := by
        simp only [List.length_cons]
        omega
      rw [htot, Nat.add_div_right _ hCS, Nat.add_mod_right]
      simp only [List.map_append, List.map_cons, List.map_nil, List.length_nil,
        Nat.zero_add, List.replicate_succ, List.length_append, List.length_singleton,
        hfull]
      simp [List.append_assoc]
    · rw [if_neg hck, ih (docs ++ [doc]) _ _ _ hrest (by
        simp only [List.length_append, List.length_singleton, List.length_cons, List.length_nil] at hck ⊢
        omega)]
      have harith : (docs ++ [doc]).length + rest.length =
          docs.length + (g :: rest).length := by
        simp only [List.length_append, List.length_singleton, List.length_cons, List.length_nil]
        omega
      rw [harith]

/-- Claim C6: on an error-free import run in which every fetched game
yields players and no document pre-exists, every in-loop bulk-upsert has
exactly `CHECKPOINT_SIZE` documents and the remainder is flushed once
after the loop; for 12 games and checkpoint size 10 the upsert calls are
of sizes 10 then 2. -/
theorem checkpoint_flush_sizes :
    (∀ (lo : Option String) (games : List GameInput),
      (∀ g ∈ games, happyInput g) →
      (pipeline_run false lo games).flushes.map List.length =
        List.replicate (games.length / CHECKPOINT_SIZE) CHECKPOINT_SIZE ++
          (if games.length % CHECKPOINT_SIZE = 0 then []
           else [games.length % CHECKPOINT_SIZE])) ∧
    (pipeline_run false none games12).flushes.map List.length = [10, 2] := by
  have hgen : ∀ (lo : Option String) (games : List GameInput),
      (∀ g ∈ games, happyInput g) →
      (pipeline_run false lo games).flushes.map List.length =
        List.replicate (games.length / CHECKPOINT_SIZE) CHECKPOINT_SIZE ++
          (if games.length % CHECKPOINT_SIZE = 0 then []
           else [games.length % CHECKPOINT_SIZE]) := by
    intro lo games hh
    unfold pipeline_run
    by_cases hg : games = []
    · subst hg
      simp [CHECKPOINT_SIZE]
    · rw [if_neg hg]
      have h := runLoop_happy_flushes lo games []
          { initStats with fetched := games.length } [] 0 hh
          (by simp [CHECKPOINT_SIZE])
      simpa using h
  refine ⟨hgen, ?_⟩
  have hh12 : ∀ g ∈ games12, happyInput g := by
    intro g hg
    rw [List.eq_of_mem_replicate hg]
    exact ⟨by decide, rfl, [samplePlayerRow], rfl, by decide⟩
  rw [hgen none games12 hh12]
  decide

theorem checkpoint_flush_sizes_witness :
    (pipeline_run false none (List.replicate 3 happyGame)).flushes.map List.length
      = [3] := by
  rw [checkpoint_flush_sizes.1 none (List.replicate 3 happyGame)
    (fun g hg => by
      rw [List.eq_of_mem_replicate hg]
      exact ⟨by decide, rfl, [samplePlayerRow], rfl, by decide⟩)]
  decide

/-- Claim C2, behaviour of the code at the claimed failing input: on a
12-game import whose 7th player query fails rate-limited after all
internal retries, `get_game_players` swallows the exception and returns
`[]`, so the run terminates normally (`raised = none`), all 12 player
fetches are performed (games after the failing one are still fetched),
the failing game is merely counted `skipped_no_players`, and no early
flush occurs — the bulk-upserts are the ordinary checkpoint ones of sizes
10 and 1.  The claimed flush-then-re-raise (with games 8–12 unfetched)
does not happen: the pipeline's `except LeaguepediaRateLimitError`
handler is unreachable. -/
theorem rateLimited_playerFetch_not_propagated :
    (pipeline_run false none games12RL).raised = none ∧
    (pipeline_run false none games12RL).fetch_count = 12 ∧
    (pipeline_run false none games12RL).stats.skipped_no_players = 1 ∧
    (pipeline_run false none games12RL).flushes.map List.length = [10, 1] := by
  decide

/-- Claim C5 counterexample: the import pipeline's built document for a
row with the parseable game length "30:00" has a known duration (1800 s)
at the document level, but its player record carries no per-minute
fields, because `LeaguepediaPipeline.run` calls `get_game_players`
without passing the duration. -/
theorem importPipeline_perMin_missing :
    parse_gamelength sampleGameRow.Gamelength = 1800 ∧
    (pipeline_run false none [happyGame]).flushes.map
        (fun b => b.map (fun d => (d.game_duration_seconds,
          d.participants.map (fun p => p.per_min.isSome)))) = [[(1800, [false])]] := by
  decide

theorem buildPlayer_zero_perMin (row : PlayerRow) :
    (buildPlayer 0 row).per_min = none := rfl

theorem get_game_players_zero_perMin (q : QueryOutcome PlayerRow) :
    ∀ p ∈ get_game_players q 0, p.per_min = none := by
  intro p hp
  cases q with
  | raised e => simp [get_game_players] at hp
  | success rows =>
    by_cases hrows : rows = []
    · simp [get_game_players, hrows] at hp
    · simp only [get_game_players, if_neg hrows, List.mem_map] at hp
      obtain ⟨row, _, rfl⟩ := hp
      exact buildPlayer_zero_perMin row

theorem build_es_document_perMin (row : GameRow) (players : List PlayerData)
    (lo : Option String) (h : ∀ p ∈ players, p.per_min = none) :
    ∀ p ∈ (build_es_document row players lo).participants, p.per_min = none := by
  intro p hp
  simp only [build_es_document, List.mem_map] at hp
  obtain ⟨q, hq, rfl⟩ := hp
  exact h q hq

theorem runLoop_perMin (dryRun : Bool) (lo : Option String) :
    ∀ (games : List GameInput) (docs : List EsDoc) (stats : PipeStats)
      (flushes : List (List EsDoc)) (fc : Nat),
      (∀ b ∈ flushes, ∀ d ∈ b, ∀ p ∈ d.participants, p.per_min = none) →
      (∀ d ∈ docs, ∀ p ∈ d.participants, p.per_min = none) →
      ∀ b ∈ (runLoop dryRun lo games docs stats flushes fc).flushes,
        ∀ d ∈ b, ∀ p ∈ d.participants, p.per_min = none := by
  intro games
  induction games with
  | nil =>
    intro docs stats flushes fc hf hd b hb
    unfold runLoop at hb
    split at hb
    · simp only at hb
      rcases List.mem_append.mp hb with h | h
      · exact hf b h
      · intro d hdm
        rw [List.mem_singleton.mp h] at hdm
        exact hd d hdm
    · exact hf b hb
  | cons g rest ih =>
    intro docs stats flushes fc hf hd b hb
    unfold runLoop at hb
    split at hb
    · exact ih docs _ flushes fc hf hd b hb
    · split at hb
      · exact ih docs _ flushes fc hf hd b hb
      · split at hb
        · exact ih docs _ flushes fc hf hd b hb
        · split at hb
          case _ heq => simp [fetchPlayersStep] at heq
          case _ heq => simp [fetchPlayersStep] at heq
          case _ players heq =>
            have hpl : players = get_game_players g.playersQuery 0 := by
              simpa [fetchPlayersStep] using heq.symm
            split at hb
            · exact ih docs _ flushes (fc + 1) hf hd b hb
            · have hdoc : ∀ p ∈ (build_es_document g.row players lo).participants,
                  p.per_min = none := by
                apply build_es_document_perMin
                rw [hpl]
                exact get_game_players_zero_perMin g.playersQuery
              dsimp only at hb
              split at hb
              · refine ih [] _ (flushes ++ [docs ++ [build_es_document g.row players lo]])
                  (fc + 1) ?_ (by simp) b hb
                intro b1 hb1
                rcases List.mem_append.mp hb1 with h | h
                · exact hf b1 h
                · intro d hdm
                  rw [List.mem_singleton.mp h] at hdm
                  rcases List.mem_append.mp hdm with h2 | h2
                  · exact hd d h2
                  · rw [List.mem_singleton.mp h2]
                    exact hdoc
              · refine ih (docs ++ [build_es_document g.row players lo]) _ flushes
                  (fc + 1) hf ?_ b hb
                intro d hdm
                rcases List.mem_append.mp hdm with h2 | h2
                · exact hd d h2
                · rw [List.mem_singleton.mp h2]
                  exact hdoc

/-- Claim C5 (amended): the import pipeline passes no duration to the
player fetch, so no document it bulk-upserts ever carries per-minute
fields — regardless of the row's game-length string; `get_game_players`
produces the per-minute block exactly when it is given a positive
duration (as the enrichment path does). -/
theorem perMin_iff_duration_passed :
    (∀ (dryRun : Bool) (lo : Option String) (games : List GameInput),
      ∀ b ∈ (pipeline_run dryRun lo games).flushes, ∀ d ∈ b,
        ∀ p ∈ d.participants, p.per_min = none) ∧
    (∀ (q : QueryOutcome PlayerRow) (dur : Nat), 0 < dur →
      ∀ p ∈ get_game_players q dur, p.per_min.isSome = true) := by
  constructor
  · intro dryRun lo games b hb
    unfold pipeline_run at hb
    split at hb
    · simp at hb
    · exact runLoop_perMin dryRun lo games [] _ [] 0 (by simp) (by simp) b hb
  · intro q dur hdur p hp
    cases q with
    | raised e => simp [get_game_players] at hp
    | success rows =>
      by_cases hrows : rows = []
      · simp [get_game_players, hrows] at hp
      · simp only [get_game_players, if_neg hrows, List.mem_map] at hp
        obtain ⟨row, _, rfl⟩ := hp
        simp [buildPlayer, hdur]

theorem perMin_iff_duration_passed_witness :
    ({ buildPlayer 0 samplePlayerRow with win := some true } : PlayerData).per_min
        = none ∧
    (buildPlayer 1800 samplePlayerRow).per_min.isSome = true := by
  constructor
  · exact perMin_iff_duration_passed.1 false none [happyGame]
      [build_es_document sampleGameRow [buildPlayer 0 samplePlayerRow] none] (by decide)
      (build_es_document sampleGameRow [buildPlayer 0 samplePlayerRow] none) (by decide)
      { buildPlayer 0 samplePlayerRow with win := some true } (by decide)
  · exact perMin_iff_duration_passed.2 (.success [samplePlayerRow]) 1800 (by decide)
      (buildPlayer 1800 samplePlayerRow) (by simp [get_game_players])

/-! ## `providers/leaguepedia.py`: `_cargo_query` under its tenacity decorator

The decorator is `@retry(stop=stop_after_attempt(7),
wait=wait_exponential(multiplier=RATE_LIMIT_SECONDS, min=RATE_LIMIT_SECONDS,
max=120), retry=retry_if_exception_type((LeaguepediaRateLimitError,
httpx.HTTPStatusError, httpx.ConnectError)))`.

tenacity semantics (library defaults): after failed attempt `n` whose
exception matches the retry filter, if `stop_after_attempt` does not yet
hold, the call sleeps `clamp(multiplier * 2^(n-1), min, max)` seconds and
retries; once the stop condition holds the decorator raises
`tenacity.RetryError` wrapping the last attempt — the original exception
is re-raised only under `reraise=True`, which the source does not set.
-/

/-- `RATE_LIMIT_SECONDS` (12.0 s in the source; whole seconds here). -/
def RATE_LIMIT_SECONDS : Nat := 12

/-- tenacity `wait_exponential(multiplier, min, max)`: the sleep before
the retry that follows failed attempt `attempt` (1-based). -/
def wait_exponential (multiplier mn mx : Nat) (attempt : Nat) : Nat :=
  max mn (min (multiplier * 2 ^ (attempt - 1)) mx)

/-- What the remote server does to one attempt of `_cargo_query`. -/
inductive ServerResponse
  | transportFailure
  | errRatelimited
  | errOther (code : String)
  | okData (d : Nat)
  deriving Repr, DecidableEq

/-- Exceptions the body of `_cargo_query` can raise:
`LeaguepediaRateLimitError` on a `ratelimited` error code, or the httpx
transport errors (`HTTPStatusError` / `ConnectError`, merged). -/
inductive CargoExc
  | rateLimitError
  | httpError
  deriving Repr, DecidableEq

/-- One attempt of the `_cargo_query` body: transport failures raise, a
`ratelimited` error code raises `LeaguepediaRateLimitError`, any other
error code is logged and returned as `{}` (`none` here), success returns
the payload. -/
def cargo_query_body : ServerResponse → Except CargoExc (Option Nat)
  | .transportFailure => .error .httpError
  | .errRatelimited => .error .rateLimitError
  | .errOther _ => .ok none
  | .okData d => .ok (some d)

/-- What the decorated call can raise to its caller: either an exception
that did not match the retry filter (re-raised as-is), or
`tenacity.RetryError` wrapping the last attempt's exception. -/
inductive RaisedExc
  | direct (e : CargoExc)
  | retryError (last : CargoExc)
  deriving Repr, DecidableEq

/-- `retry_if_exception_type((LeaguepediaRateLimitError,
httpx.HTTPStatusError, httpx.ConnectError))`: every exception the body
raises is retryable. -/
def retry_filter (e : CargoExc) : Bool :=
  match e with
  | .rateLimitError => true
  | .httpError => true

/-- The tenacity retry loop with `remaining + 1` attempts still allowed,
currently at 1-based `attempt`, accumulating the waits slept so far.  The
`0` case is unreachable from `cargo_query` (the ceiling is positive). -/
def tenacityGo (responses : Nat → ServerResponse) :
    Nat → Nat → List Nat → Except RaisedExc (Option Nat) × List Nat
  | 0, _, waits => (.error (.retryError .rateLimitError), waits)
  | remaining + 1, attempt, waits =>
    match cargo_query_body (responses attempt) with
    | .ok d => (.ok d, waits)
    | .error e =>
      if retry_filter e = false then (.error (.direct e), waits)
      else if remaining = 0 then (.error (.retryError e), waits)
      else
        tenacityGo responses remaining (attempt + 1)
          (waits ++ [wait_exponential RATE_LIMIT_SECONDS RATE_LIMIT_SECONDS 120 attempt])

/-- `_cargo_query` as decorated: up to 7 attempts, exponential waits with
multiplier = min = `RATE_LIMIT_SECONDS`, max = 120, tenacity default
`reraise=False`.  Returns the call's outcome and the sequence of waits. -/
def cargo_query (responses : Nat → ServerResponse) :
    Except RaisedExc (Option Nat) × List Nat :=
  tenacityGo responses 7 1 []

/-- Claim C1, behaviour at the failing input: when the server answers
`ratelimited` to all 7 attempts, the retry waits do follow the claimed
schedule 12, 24, 48, 96 capped at 120 — but what reaches the caller on
exhaustion is `tenacity.RetryError` wrapping the final
`LeaguepediaRateLimitError`, not the distinct `LeaguepediaRateLimitError`
itself: the decorator omits `reraise=True`, contradicting the docstring
"Raises: LeaguepediaRateLimitError: when all retries are exhausted". -/
theorem cargoQuery_exhaustion_raises_RetryError :
    (cargo_query (fun _ => .errRatelimited)).2 = [12, 24, 48, 96, 120, 120] ∧
    (cargo_query (fun _ => .errRatelimited)).1 =
      .error (.retryError .rateLimitError) ∧
    (cargo_query (fun _ => .errRatelimited)).1 ≠
      .error (.direct .rateLimitError) := by
  refine ⟨by decide, rfl, ?_⟩
  intro h
  rw [show (cargo_query (fun _ => ServerResponse.errRatelimited)).1 =
      .error (.retryError .rateLimitError) from rfl] at h
  simp at h

/-! ## Document store and `etl/enrichment_pipeline.py`

The store maps document ids to documents.  `_bulk_index` emits plain ES
"index" actions, which replace the whole document at its id; `es.update`
merges the given fields into the existing document (a partial update on
an absent id would be an ES error; processed documents come from the
store, so the absent case is modelled as a no-op).
-/

def Store := String → Option EsDoc

/-- One ES "index" action: replace the document at `d.id`. -/
def upsertOne (s : Store) (d : EsDoc) : Store :=
  fun k => if k = d.id then some d else s k

/-- `_bulk_index` / `helpers.bulk` with index actions. -/
def bulk_index (s : Store) (ds : List EsDoc) : Store :=
  List.foldl upsertOne s ds

/-- The import pipeline's bulk upsert: every document in the batch was
produced by `build_es_document`. -/
def import_bulk_upsert (s : Store) (items : List (GameRow × List PlayerData))
    (lo : Option String) : Store :=
  bulk_index s (items.map (fun it => build_es_document it.1 it.2 lo))

/-- `update_document(index, doc_id, fields)`: partial update by id. -/
def update_fields (s : Store) (id : String) (f : EsDoc → EsDoc) : Store :=
  fun k => if k = id then (s k).map f else s k

/-- A `ScoreboardGames` row as used by `get_game_scoreboard`. -/
structure GameInfoRow where
  GameId : String
  WinTeam : String
  Team1 : String
  Team2 : String
  Patch : String
  Gamelength : String
  DateTimeUTC : String
  deriving Repr, DecidableEq

/-- The dict returned by `get_game_scoreboard`. -/
structure GameInfo where
  page_name : String
  win_team : String
  team1 : String
  team2 : String
  patch : String
  gamelength : String
  gamelength_seconds : Nat
  datetime_utc : String
  deriving Repr, DecidableEq

/-- `get_game_scoreboard`: any exception from the query (including
rate-limit exhaustion) is caught and becomes `None`; so is an empty
result set or an empty GameId. -/
def get_game_scoreboard (q : QueryOutcome GameInfoRow) : Option GameInfo :=
  match q with
  | .raised _ => none
  | .success results =>
    match results with
    | [] => none
    | row :: _ =>
      if row.GameId = "" then none
      else
        some { page_name := row.GameId, win_team := row.WinTeam,
               team1 := row.Team1, team2 := row.Team2, patch := row.Patch,
               gamelength := row.Gamelength,
               gamelength_seconds := parse_gamelength row.Gamelength,
               datetime_utc := row.DateTimeUTC }

/-- The dict returned by `get_game_data`. -/
structure GameData where
  page_name : String
  win_team : String
  team1 : String
  team2 : String
  patch : String
  gamelength : String
  gamelength_seconds : Nat
  players : List PlayerData
  deriving Repr, DecidableEq

/-- `get_game_data`: scoreboard lookup, then player lookup with the found
duration; `None` when either step finds nothing; players annotated with
the win flag. -/
def get_game_data (q1 : QueryOutcome GameInfoRow) (q2 : QueryOutcome PlayerRow) :
    Option GameData :=
  match get_game_scoreboard q1 with
  | none => none
  | some info =>
    let players := get_game_players q2 info.gamelength_seconds
    if players = [] then none
    else
      let annotated :=
        players.map (fun p => { p with win := some (p.team_name = info.win_team) })
      some { page_name := info.page_name, win_team := info.win_team,
             team1 := info.team1, team2 := info.team2, patch := info.patch,
             gamelength := info.gamelength,
             gamelength_seconds := info.gamelength_seconds,
             players := annotated }

/-- `MAX_ATTEMPTS` -/
def MAX_ATTEMPTS : Nat := 3

/-- The two remote lookups one enrichment attempt may perform. -/
structure EnrichEnv where
  q1 : QueryOutcome GameInfoRow
  q2 : QueryOutcome PlayerRow
  deriving Repr, DecidableEq

/-- The successful-enrichment partial update issued by `enrich_game`
(`enriched_at` is the wall clock passed as `now`). -/
def applyEnrichSuccess (gd : GameData) (now : Nat) (d : EsDoc) : EsDoc :=
  { d with riot_enriched := true
           participants := gd.players
           patch := gd.patch
           win_team := gd.win_team
           gamelength := gd.gamelength
           game_duration_seconds := gd.gamelength_seconds
           enriched_at := some now
           enrichment_source := "leaguepedia" }

/-- The failed-enrichment partial update issued by `run_batch`: the
attempt counter (as read from the batch snapshot) plus one, and a
last-attempt stamp. -/
def applyEnrichFailure (attempts : Nat) (now : Nat) (d : EsDoc) : EsDoc :=
  { d with enrichment_attempts := attempts + 1
           last_enrichment_attempt := some now }

/-- What one call of `enrich_game` did: whether it reported success,
whether it actually performed the remote lookup, and the store after any
update it issued. -/
structure EnrichOutcome where
  success : Bool
  lookedUp : Bool
  store : Store

/-- `EnrichmentPipeline.enrich_game`: bail out (no lookup) on missing
team names or start time; otherwise run the two-step lookup — whose
internal failures have already been absorbed into `None`/`[]` — and on
success issue the enrichment update. -/
def enrich_game (s : Store) (doc_id : String) (src : EsDoc) (env : EnrichEnv)
    (now : Nat) : EnrichOutcome :=
  if src.team1_name = "" ∨ src.team2_name = "" ∨ src.start_time = "" then
    { success := false, lookedUp := false, store := s }
  else
    match get_game_data env.q1 env.q2 with
    | none => { success := false, lookedUp := true, store := s }
    | some gd =>
      if gd.players = [] then { success := false, lookedUp := true, store := s }
      else
        { success := true, lookedUp := true,
          store := update_fields s doc_id (applyEnrichSuccess gd now) }

/-- One hit returned by `query_unenriched`, bundled with the remote
outcomes its enrichment attempt would see. -/
structure BatchItem where
  id : String
  src : EsDoc
  env : EnrichEnv
  deriving Repr, DecidableEq

/-- The per-document loop of `EnrichmentPipeline.run_batch`, returning
the final store, the ids for which a remote lookup ran, and the
`processed` count.  (The cooperative `self.running` stop flag is signal
driven and not modelled: the loop runs to completion.) -/
def run_batch_aux (now : Nat) :
    List BatchItem → Store → List String → Nat → Store × List String × Nat
  | [], s, lk, pr => (s, lk, pr)
  | it :: rest, s, lk, pr =>
    if MAX_ATTEMPTS ≤ it.src.enrichment_attempts then
      run_batch_aux now rest s lk pr
    else
      let o := enrich_game s it.id it.src it.env now
      let s2 :=
        if o.success then o.store
        else update_fields o.store it.id
          (applyEnrichFailure it.src.enrichment_attempts now)
      run_batch_aux now rest s2 (if o.lookedUp then lk ++ [it.id] else lk) (pr + 1)

/-- `EnrichmentPipeline.run_batch` on one batch of query hits. -/
def run_batch (s : Store) (now : Nat) (batch : List BatchItem) :
    Store × List String × Nat :=
  run_batch_aux now batch s [] 0

theorem update_fields_ne (s : Store) (id x : String) (f : EsDoc → EsDoc)
    (h : x ≠ id) : update_fields s id f x = s x := by
  simp [update_fields, h]

theorem enrich_game_store_ne (s : Store) (doc_id : String) (src : EsDoc)
    (env : EnrichEnv) (now : Nat) (x : String) (h : x ≠ doc_id) :
    (enrich_game s doc_id src env now).store x = s x := by
  unfold enrich_game
  split
  · rfl
  · split
    · rfl
    · split
      · rfl
      · exact update_fields_ne s doc_id x _ h

/-- Items that are skipped, or whose id differs from `x`, leave the store
at `x` and the membership of `x` in the lookup list untouched. -/
theorem run_batch_aux_untouched (now : Nat) :
    ∀ (batch : List BatchItem) (s : Store) (lk : List String) (pr : Nat)
      (x : String),
      (∀ it ∈ batch, MAX_ATTEMPTS ≤ it.src.enrichment_attempts ∨ it.id ≠ x) →
      (run_batch_aux now batch s lk pr).1 x = s x ∧
      (x ∉ lk → x ∉ (run_batch_aux now batch s lk pr).2.1) := by
  intro batch
  induction batch with
  | nil => exact fun s lk pr x _ => ⟨rfl, fun hx => hx⟩
  | cons it rest ih =>
    intro s lk pr x h
    have hit := h it (List.mem_cons_self it rest)
    have hrest := fun j hj => h j (List.mem_cons_of_mem it hj)
    unfold run_batch_aux
    by_cases hskip : MAX_ATTEMPTS ≤ it.src.enrichment_attempts
    · rw [if_pos hskip]
      exact ih s lk pr x hrest
    · rw [if_neg hskip]
      have hne : it.id ≠ x := by
        rcases hit with hm | hne
        · exact absurd hm hskip
        · exact hne
      dsimp only
      have hs2 : (if (enrich_game s it.id it.src it.env now).success = true
          then (enrich_game s it.id it.src it.env now).store
          else update_fields (enrich_game s it.id it.src it.env now).store it.id
            (applyEnrichFailure it.src.enrichment_attempts now)) x = s x := by
        by_cases hsucc : (enrich_game s it.id it.src it.env now).success = true
        · rw [if_pos hsucc]
          exact enrich_game_store_ne s it.id it.src it.env now x (Ne.symm hne)
        · rw [if_neg hsucc, update_fields_ne _ _ _ _ (Ne.symm hne)]
          exact enrich_game_store_ne s it.id it.src it.env now x (Ne.symm hne)
      obtain ⟨h1, h2⟩ := ih _ _ (pr + 1) x hrest
      refine ⟨by rw [h1, hs2], fun hx => h2 ?_⟩
      by_cases hlook : (enrich_game s it.id it.src it.env now).lookedUp = true
      · rw [if_pos hlook]
        intro hc
        rcases List.mem_append.mp hc with hc | hc
        · exact hx hc
        · exact hne (List.mem_singleton.mp hc).symm
      · rw [if_neg hlook]
        exact hx

theorem run_batch_aux_max_skipped (now : Nat) :
    ∀ (batch : List BatchItem) (s : Store) (lk : List String) (pr : Nat)
      (it : BatchItem),
      it ∈ batch →
      MAX_ATTEMPTS ≤ it.src.enrichment_attempts →
      (batch.map BatchItem.id).Nodup →
      it.id ∉ lk →
      it.id ∉ (run_batch_aux now batch s lk pr).2.1 ∧
      (run_batch_aux now batch s lk pr).1 it.id = s it.id := by
  intro batch
  induction batch with
  | nil => intro s lk pr it hmem; exact absurd hmem (List.not_mem_nil it)
  | cons j rest ih =>
    intro s lk pr it hmem hmax hnd hlk
    rw [List.map_cons, List.nodup_cons] at hnd
    rcases List.mem_cons.mp hmem with heq | hmem2
    · subst heq
      unfold run_batch_aux
      rw [if_pos hmax]
      have hne : ∀ k ∈ rest, MAX_ATTEMPTS ≤ k.src.enrichment_attempts ∨ k.id ≠ it.id := by
        intro k hk
        right
        intro hkid
        exact hnd.1 (hkid ▸ List.mem_map_of_mem BatchItem.id hk)
      obtain ⟨h1, h2⟩ := run_batch_aux_untouched now rest s lk pr it.id hne
      exact ⟨h2 hlk, h1⟩
    · have hji : j.id ≠ it.id := by
        intro hc
        exact hnd.1 (hc ▸ List.mem_map_of_mem BatchItem.id hmem2)
      unfold run_batch_aux
      by_cases hskip : MAX_ATTEMPTS ≤ j.src.enrichment_attempts
      · rw [if_pos hskip]
        exact ih s lk pr it hmem2 hmax hnd.2 hlk
      · rw [if_neg hskip]
        dsimp only
        obtain ⟨h1, h2⟩ := ih
          (if (enrich_game s j.id j.src j.env now).success = true
            then (enrich_game s j.id j.src j.env now).store
            else update_fields (enrich_game s j.id j.src j.env now).store j.id
              (applyEnrichFailure j.src.enrichment_attempts now))
          (if (enrich_game s j.id j.src j.env now).lookedUp = true
            then lk ++ [j.id] else lk)
          (pr + 1) it hmem2 hmax hnd.2 (by
            by_cases hlook : (enrich_game s j.id j.src j.env now).lookedUp = true
            · rw [if_pos hlook]
              intro hc
              rcases List.mem_append.mp hc with hc | hc
              · exact hlk hc
              · exact hji (List.mem_singleton.mp hc).symm
            · rw [if_neg hlook]
              exact hlk)
        refine ⟨h1, ?_⟩
        rw [h2]
        by_cases hsucc : (enrich_game s j.id j.src j.env now).success = true
        · rw [if_pos hsucc]
          exact enrich_game_store_ne s j.id j.src j.env now it.id (Ne.symm hji)
        · rw [if_neg hsucc, update_fields_ne _ _ _ _ (Ne.symm hji)]
          exact enrich_game_store_ne s j.id j.src j.env now it.id (Ne.symm hji)

/-- Claim C9: a document whose `enrichment_attempts` has reached
`MAX_ATTEMPTS` is skipped by the enrichment batch without being mutated
further: no remote lookup runs for it, and the store entry at its id —
attempt counter, timestamps and every other field — is exactly what it
was before the batch. -/
theorem maxAttempts_doc_skipped (s : Store) (now : Nat) (batch : List BatchItem)
    (it : BatchItem) (hmem : it ∈ batch)
    (hmax : MAX_ATTEMPTS ≤ it.src.enrichment_attempts)
    (hnodup : (batch.map BatchItem.id).Nodup) :
    it.id ∉ (run_batch s now batch).2.1 ∧
    (run_batch s now batch).1 it.id = s it.id := by
  unfold run_batch
  exact run_batch_aux_max_skipped now batch s [] 0 it hmem hmax hnodup
    (List.not_mem_nil _)

/-- An already-enriched, permanently-failed document (attempts at the
ceiling). -/
def maxedDoc : EsDoc :=
  { build_es_document sampleGameRow [buildPlayer 0 samplePlayerRow] none with
      riot_enriched := false, enrichment_attempts := 3 }

def maxedItem : BatchItem :=
  { id := maxedDoc.id, src := maxedDoc,
    env := { q1 := .raised .retryError, q2 := .raised .retryError } }

def maxedStore : Store :=
  fun k => if k = maxedDoc.id then some maxedDoc else none

theorem maxAttempts_doc_skipped_witness :
    maxedItem.id ∉ (run_batch maxedStore 0 [maxedItem]).2.1 ∧
    (run_batch maxedStore 0 [maxedItem]).1 maxedItem.id = maxedStore maxedItem.id := by
  exact maxAttempts_doc_skipped maxedStore 0 [maxedItem] maxedItem
    (List.mem_singleton.mpr rfl) (by decide) (by decide)

theorem build_es_document_enriched (row : GameRow) (players : List PlayerData)
    (lo : Option String) : (build_es_document row players lo).riot_enriched = true := rfl

/-- A bulk index either leaves the store at `x` alone or stores one of
the batch's documents there. -/
theorem bulk_index_mem_or :
    ∀ (ds : List EsDoc) (s : Store) (x : String),
      bulk_index s ds x = s x ∨ ∃ d ∈ ds, bulk_index s ds x = some d := by
  intro ds
  induction ds with
  | nil => exact fun s x => Or.inl rfl
  | cons d rest ih =>
    intro s x
    have hstep : bulk_index s (d :: rest) = bulk_index (upsertOne s d) rest := rfl
    rcases ih (upsertOne s d) x with h | ⟨d1, hd1, h⟩
    · by_cases hx : x = d.id
      · right
        refine ⟨d, List.mem_cons_self d rest, ?_⟩
        rw [hstep, h]
        simp [upsertOne, hx]
      · left
        rw [hstep, h]
        simp [upsertOne, hx]
    · right
      exact ⟨d1, List.mem_cons_of_mem d hd1, by rw [hstep]; exact h⟩

/-- Claim C7: once a stored document's enriched flag is true, none of the
pipeline's three writes ever stores a document with the flag false at
that id: the import bulk-upsert only writes documents built by
`build_es_document` (flag set true), the enrichment success update sets
the flag true, and the enrichment failure update does not touch it. -/
theorem enriched_monotonic :
    (∀ (s : Store) (items : List (GameRow × List PlayerData)) (lo : Option String)
        (x : String) (d0 d1 : EsDoc),
      s x = some d0 → d0.riot_enriched = true →
      import_bulk_upsert s items lo x = some d1 → d1.riot_enriched = true) ∧
    (∀ (s : Store) (id x : String) (gd : GameData) (now : Nat) (d0 d1 : EsDoc),
      s x = some d0 → d0.riot_enriched = true →
      update_fields s id (applyEnrichSuccess gd now) x = some d1 →
      d1.riot_enriched = true) ∧
    (∀ (s : Store) (id x : String) (attempts now : Nat) (d0 d1 : EsDoc),
      s x = some d0 → d0.riot_enriched = true →
      update_fields s id (applyEnrichFailure attempts now) x = some d1 →
      d1.riot_enriched = true) := by
  refine ⟨?_, ?_, ?_⟩
  · intro s items lo x d0 d1 hs h0 h1
    unfold import_bulk_upsert at h1
    rcases bulk_index_mem_or (items.map (fun it => build_es_document it.1 it.2 lo)) s x
      with h | ⟨d, hd, h⟩
    · rw [h, hs] at h1
      injection h1 with h1
      rw [← h1]
      exact h0
    · rw [h] at h1
      injection h1 with h1
      obtain ⟨⟨r, ps⟩, _, rfl⟩ := List.mem_map.mp hd
      rw [← h1]
      exact build_es_document_enriched r ps lo
  · intro s id x gd now d0 d1 hs h0 h1
    unfold update_fields at h1
    by_cases hx : x = id
    · rw [if_pos hx, hs] at h1
      injection h1 with h1
      rw [← h1]
      rfl
    · rw [if_neg hx, hs] at h1
      injection h1 with h1
      rw [← h1]
      exact h0
  · intro s id x attempts now d0 d1 hs h0 h1
    unfold update_fields at h1
    by_cases hx : x = id
    · rw [if_pos hx, hs] at h1
      injection h1 with h1
      rw [← h1]
      exact h0
    · rw [if_neg hx, hs] at h1
      injection h1 with h1
      rw [← h1]
      exact h0

/-- A freshly imported (already enriched) document and a store holding it. -/
def enrichedDoc : EsDoc :=
  build_es_document sampleGameRow [buildPlayer 0 samplePlayerRow] none

def enrichedStore : Store :=
  fun k => if k = enrichedDoc.id then some enrichedDoc else none

theorem enriched_monotonic_witness :
    ((import_bulk_upsert enrichedStore
        [(sampleGameRow, [buildPlayer 0 samplePlayerRow])] none enrichedDoc.id).all
      (fun d => d.riot_enriched) = true) ∧
    ((update_fields enrichedStore enrichedDoc.id (applyEnrichFailure 1 5)
        enrichedDoc.id).all (fun d => d.riot_enriched) = true) := by
  constructor
  · cases h : import_bulk_upsert enrichedStore
        [(sampleGameRow, [buildPlayer 0 samplePlayerRow])] none enrichedDoc.id with
    | none => rfl
    | some d1 =>
      exact enriched_monotonic.1 enrichedStore
        [(sampleGameRow, [buildPlayer 0 samplePlayerRow])] none enrichedDoc.id
        enrichedDoc d1 rfl rfl h
  · cases h : update_fields enrichedStore enrichedDoc.id (applyEnrichFailure 1 5)
        enrichedDoc.id with
    | none => rfl
    | some d1 =>
      exact enriched_monotonic.2.2 enrichedStore enrichedDoc.id enrichedDoc.id 1 5
        enrichedDoc d1 rfl rfl h

/-- Claim C10: a rate-limit rejection (or any other exception) inside the
two-step enrichment lookup never escapes: `get_game_scoreboard` absorbs
it into `None`, so the attempt surfaces as a lookup miss — `enrich_game`
reports failure and the batch loop writes the failure update,
incrementing the document's bounded `enrichment_attempts` by one (unlike
the Backfill Orchestrator, whose rate-limited branch leaves its retry
counter unchanged, cf. the orchestrator theorems). -/
theorem rateLimited_lookup_consumes_attempt (e : ExcKind) (s : Store)
    (it : BatchItem) (now : Nat) (d0 : EsDoc)
    (hq1 : it.env.q1 = .raised e)
    (hlt : it.src.enrichment_attempts < MAX_ATTEMPTS)
    (hs : s it.id = some d0) :
    get_game_data it.env.q1 it.env.q2 = none ∧
    (enrich_game s it.id it.src it.env now).success = false ∧
    (run_batch s now [it]).1 it.id =
      some (applyEnrichFailure it.src.enrichment_attempts now d0) := by
  have hsb : get_game_scoreboard it.env.q1 = none := by
    rw [hq1]
    rfl
  have hgd : get_game_data it.env.q1 it.env.q2 = none := by
    unfold get_game_data
    rw [hsb]
  have hout : enrich_game s it.id it.src it.env now =
      (if it.src.team1_name = "" ∨ it.src.team2_name = "" ∨ it.src.start_time = ""
       then { success := false, lookedUp := false, store := s }
       else { success := false, lookedUp := true, store := s }) := by
    unfold enrich_game
    by_cases hm : it.src.team1_name = "" ∨ it.src.team2_name = "" ∨ it.src.start_time = ""
    · rw [if_pos hm, if_pos hm]
    · rw [if_neg hm, if_neg hm, hgd]
  have hsucc : (enrich_game s it.id it.src it.env now).success = false := by
    rw [hout]
    split_ifs <;> rfl
  have hstore : (enrich_game s it.id it.src it.env now).store = s := by
    rw [hout]
    split_ifs <;> rfl
  refine ⟨hgd, hsucc, ?_⟩
  unfold run_batch run_batch_aux
  rw [if_neg (Nat.not_le.mpr hlt)]
  dsimp only
  rw [if_neg (by rw [hsucc]; exact Bool.false_ne_true), hstore]
  show update_fields s it.id (applyEnrichFailure it.src.enrichment_attempts now) it.id =
    some (applyEnrichFailure it.src.enrichment_attempts now d0)
  simp [update_fields, hs]

/-- An unenriched document whose scoreboard lookup dies rate-limited. -/
def unenrichedDoc : EsDoc :=
  { build_es_document sampleGameRow [buildPlayer 0 samplePlayerRow] none with
      riot_enriched := false }

def missItem : BatchItem :=
  { id := unenrichedDoc.id, src := unenrichedDoc,
    env := { q1 := .raised .retryError, q2 := .success [samplePlayerRow] } }

def missStore : Store :=
  fun k => if k = unenrichedDoc.id then some unenrichedDoc else none

theorem rateLimited_lookup_consumes_attempt_witness :
    get_game_data missItem.env.q1 missItem.env.q2 = none ∧
    (run_batch missStore 7 [missItem]).1 missItem.id =
      some (applyEnrichFailure unenrichedDoc.enrichment_attempts 7 unenrichedDoc) := by
  have h := rateLimited_lookup_consumes_attempt .retryError missStore missItem 7
    unenrichedDoc rfl (by decide) rfl
  exact ⟨h.1, h.2.2⟩

end ProStaff
